import Mathlib

/-!
Verification of the quantification-automation repository's
thresholding-and-measurement behavior.

The repository drives Fiji/ImageJ from Python.  Pure computations found in
the Python sources (`quantify_images.py`, `scripts/run_batch_quant.py`) are
embedded directly; numeric work the scripts delegate to Fiji (the Otsu
threshold search, per-pixel statistics) is modelled from the specification,
as marked on each such definition.  Floating-point values are represented by
`Option ℚ`: `none` stands for NaN, `some q` for the finite value `q`.
-/

/- ### Character constants used by the float parser (named to avoid literals) -/

def chPlus : Char := Char.ofNat 43

def chMinus : Char := Char.ofNat 45

def chDot : Char := Char.ofNat 46

def chExpLower : Char := Char.ofNat 101

def chExpUpper : Char := Char.ofNat 69

/-- Value of a decimal digit character (codepoint minus 48). -/
def digitsVal (cs : List Char) : ℕ :=
  cs.foldl (fun a c => 10 * a + (c.toNat - 48)) 0

/-- Split an optional leading sign character off a character list,
returning the sign as `1` or `-1`. -/
def stripSign (cs : List Char) : Int × List Char :=
  match cs with
  | [] => (1, [])
  | c :: rest =>
      if c = chPlus then (1, rest)
      else if c = chMinus then (-1, rest)
      else (1, cs)

/-- Longest leading run of decimal digits and the remainder. -/
def spanDigits (cs : List Char) : List Char × List Char :=
  (cs.takeWhile Char.isDigit, cs.dropWhile Char.isDigit)

/-- Modelled from the spec: the mantissa part of Python's built-in
`float(str)` conversion (the conversion itself is a language primitive, not
code of this repository).  Accepts `digits`, `digits.digits`, `digits.` and
`.digits`; returns the integer-part value, the fraction-part value, the
fraction length, and the unconsumed remainder. -/
def parseMantissa (cs : List Char) : Option ((ℕ × ℕ × ℕ) × List Char) :=
  let ip := (spanDigits cs).1
  let rest := (spanDigits cs).2
  match rest with
  | [] => if ip.isEmpty then none else some ((digitsVal ip, 0, 0), [])
  | c :: rest2 =>
      if c = chDot then
        let fp := (spanDigits rest2).1
        let rest3 := (spanDigits rest2).2
        if ip.isEmpty && fp.isEmpty then none
        else some ((digitsVal ip, digitsVal fp, fp.length), rest3)
      else if ip.isEmpty then none else some ((digitsVal ip, 0, 0), rest)

/-- Modelled from the spec: the exponent tail of Python's `float(str)`:
either nothing, or `e`/`E`, an optional sign, and digits consuming the whole
remainder.  `none` signals a parse failure (Python raises ValueError). -/
def parseExpPart (cs : List Char) : Option Int :=
  match cs with
  | [] => some 0
  | c :: rest =>
      if c = chExpLower ∨ c = chExpUpper then
        let sg := (stripSign rest).1
        let rest2 := (stripSign rest).2
        let ds := (spanDigits rest2).1
        let rest3 := (spanDigits rest2).2
        if ds.isEmpty ∨ ¬ rest3.isEmpty then none
        else some (sg * (digitsVal ds : Int))
      else none

/-- Whitespace stripping on character lists (Python's float conversion
ignores surrounding whitespace). -/
def trimChars (cs : List Char) : List Char :=
  ((cs.dropWhile Char.isWhitespace).reverse.dropWhile Char.isWhitespace).reverse

/-- The sign, digit values and exponent read off a decimal literal; kept in
ℤ/ℕ so that parsing is kernel-computable, with the rational value assembled
separately by `partsVal`. -/
structure FloatParts where
  sign : Int
  ipVal : ℕ
  fpVal : ℕ
  fpLen : ℕ
  exp : Int
deriving DecidableEq

/-- Modelled from the spec: Python's built-in `float(str)` on ordinary
finite decimal literals (optional surrounding whitespace, optional sign,
decimal mantissa, optional decimal exponent), parsing phase.  `inf`/`nan`
spellings and digit-group underscores are not modelled; on them and on any
other malformed input the result is `none`, matching the ValueError Python
raises. -/
def pyFloatParts (s : String) : Option FloatParts :=
  let cs := trimChars s.toList
  let sg := (stripSign cs).1
  let cs1 := (stripSign cs).2
  match parseMantissa cs1 with
  | none => none
  | some mr =>
      match parseExpPart mr.2 with
      | none => none
      | some e => some ⟨sg, mr.1.1, mr.1.2.1, mr.1.2.2, e⟩

/-- The rational value denoted by parsed float parts:
`sign * (intPart + fracPart / 10^fracLen) * 10^exp`. -/
def partsVal (p : FloatParts) : ℚ :=
  (p.sign : ℚ) * ((p.ipVal : ℚ) + (p.fpVal : ℚ) / (10 : ℚ) ^ p.fpLen) * (10 : ℚ) ^ p.exp

/-- Modelled from the spec: Python's built-in `float(str)` as used by
`safe_float`; `none` stands for a ValueError. -/
def pyFloat (s : String) : Option ℚ :=
  (pyFloatParts s).map partsVal

/-- Embeds `safe_float` (src/quantify_images.py, lines 440-448): `None` or
the empty string give NaN, a string `float` rejects gives NaN, otherwise the
parsed value.  NaN is represented as `none`. -/
def safe_float (value : Option String) : Option ℚ :=
  match value with
  | none => none
  | some s => if s = "" then none else pyFloat s

/- ### Manual threshold clamping (macro text in build_macro_content) -/

/-- Embeds the clamp in the generated macro (src/quantify_images.py, lines
344-347): `lower = manualValue; if (lower < 0) lower = 0; if (lower > 255)
lower = 255;`. -/
def clampThreshold (v : Int) : Int :=
  if v < 0 then 0 else if v > 255 then 255 else v

/-- Modelled from the spec: the mask ImageJ builds from
`setThreshold(lower, 255)` (src/quantify_images.py, line 347) selects the
pixels with `lower <= pixel`; the thresholding itself happens inside
ImageJ, outside this repository. -/
def manualMaskPix (v : Int) (pixel : Int) : Bool :=
  decide (clampThreshold v ≤ pixel)

/-- Embeds the manual-branch label of the macro (src/quantify_images.py,
line 348): `thresholdLabel = "Manual (" + lower + ")"` with `lower` the
clamped value. -/
def manualLabel (v : Int) : String :=
  "Manual (" ++ toString (clampThreshold v) ++ ")"

/-- Embeds `ThresholdConfig.macro_manual_value` (src/quantify_images.py,
lines 83-85): `int(self.manual_value or 0)`; for integer values Python's
`or 0` collapses `None` (and `0` itself) to `0`. -/
def manualValueOfConfig (mv : Option Int) : Int :=
  match mv with
  | none => 0
  | some v => if v = 0 then 0 else v

/- ### The batch loop of scripts/run_batch_quant.py -/

instance {ε α : Type} [DecidableEq ε] [DecidableEq α] : DecidableEq (Except ε α)
  | Except.ok x, Except.ok y =>
      if h : x = y then isTrue (by rw [h])
      else isFalse (by intro hc; cases hc; exact h rfl)
  | Except.ok _, Except.error _ => isFalse (by intro hc; cases hc)
  | Except.error _, Except.ok _ => isFalse (by intro hc; cases hc)
  | Except.error e, Except.error f =>
      if h : e = f then isTrue (by rw [h])
      else isFalse (by intro hc; cases hc; exact h rfl)

/-- One entry of the image list handed to `main`
(src/scripts/run_batch_quant.py): its path, whether the file exists, and
what `quantify_image` would do on it — `Except.ok (area, integrated
density)` on success, `Except.error msg` for the RuntimeError it raises on
a corrupt/unreadable file. -/
structure BatchInput where
  path : String
  fileExists : Bool
  outcome : Except String (ℚ × ℚ)
deriving DecidableEq

/-- Embeds the per-image loop of `main` (src/scripts/run_batch_quant.py,
lines 121-132): a missing file appends its path to `skipped`; a
`quantify_image` exception appends a reason and continues; a success
appends `(path, area, intden)` to `results`.  The recursion prepends where
the loop appends, producing the same two sequences in the same order. -/
def batchLoop : List BatchInput → List (String × ℚ × ℚ) × List String
  | [] => ([], [])
  | inp :: rest =>
      if inp.fileExists then
        match inp.outcome with
        | Except.ok ad =>
            ((inp.path, ad) :: (batchLoop rest).1, (batchLoop rest).2)
        | Except.error e =>
            ((batchLoop rest).1,
             (inp.path ++ " (error: " ++ e ++ ")") :: (batchLoop rest).2)
      else ((batchLoop rest).1, inp.path :: (batchLoop rest).2)

/-- An input produces an ImageRecord iff its file exists and
`quantify_image` succeeds on it. -/
def inputSucceeds (inp : BatchInput) : Bool :=
  inp.fileExists &&
    (match inp.outcome with
     | Except.ok _ => true
     | Except.error _ => false)

/-- The measurement payload of a successful input (arbitrary on failures,
which never reach the record list). -/
def outcomeVal (inp : BatchInput) : ℚ × ℚ :=
  match inp.outcome with
  | Except.ok ad => ad
  | Except.error _ => (0, 0)

/-- The image names of the records the batch loop produces, in order. -/
def recordNames (inputs : List BatchInput) : List String :=
  ((batchLoop inputs).1).map Prod.fst

lemma batchLoop_records (inputs : List BatchInput) :
    (batchLoop inputs).1
      = (inputs.filter inputSucceeds).map (fun i => (i.path, outcomeVal i)) := by
  induction inputs with
  | nil => rfl
  | cons inp rest ih =>
      by_cases hf : inp.fileExists
      · rcases ho : inp.outcome with e | ad
        · have hs : inputSucceeds inp = false := by
            simp [inputSucceeds, hf, ho]
          simp [batchLoop, hf, ho, List.filter_cons, hs, ih]
        · have hs : inputSucceeds inp = true := by
            simp [inputSucceeds, hf, ho]
          simp [batchLoop, hf, ho, List.filter_cons, hs, ih, outcomeVal]
      · have hs : inputSucceeds inp = false := by
          simp [inputSucceeds, hf]
        simp [batchLoop, hf, List.filter_cons, hs, ih]

lemma batchLoop_skip_count (inputs : List BatchInput) :
    (batchLoop inputs).2.length = inputs.countP (fun i => ! inputSucceeds i) := by
  induction inputs with
  | nil => rfl
  | cons inp rest ih =>
      by_cases hf : inp.fileExists
      · rcases ho : inp.outcome with e | ad
        · have hs : inputSucceeds inp = false := by
            simp [inputSucceeds, hf, ho]
          simp [batchLoop, hf, ho, List.countP_cons, hs, ih]
        · have hs : inputSucceeds inp = true := by
            simp [inputSucceeds, hf, ho]
          simp [batchLoop, hf, ho, List.countP_cons, hs, ih]
      · have hs : inputSucceeds inp = false := by
          simp [inputSucceeds, hf]
        simp [batchLoop, hf, List.countP_cons, hs, ih]

/-- The demonstration batch: three images, the middle one corrupt. -/
def demoThree : List BatchInput :=
  [⟨"a.png", true, Except.ok (4, 100)⟩,
   ⟨"b.png", true, Except.error ("Failed to open b.png")⟩,
   ⟨"c.png", true, Except.ok (4, 80)⟩]

/-- A batch supplied in the order b, a, c, every image readable. -/
def demoSupplyOrder : List BatchInput :=
  [⟨"b.png", true, Except.ok (1, 1)⟩,
   ⟨"a.png", true, Except.ok (1, 1)⟩,
   ⟨"c.png", true, Except.ok (1, 1)⟩]

/- ### Image enumeration of quantify_images.py -/

/-- A directory entry as `Path.iterdir` yields it: the file name, its
extension (Python's `path.suffix`, dot included), and whether it is a
regular file. -/
structure DirEntry where
  name : String
  suffix : String
  isFile : Bool
deriving DecidableEq

/-- Embeds `SUPPORTED_EXTENSIONS` (src/quantify_images.py, line 24). -/
def SUPPORTED_EXTENSIONS : List String :=
  [".png", ".jpg", ".jpeg", ".tif", ".tiff", ".bmp"]

/-- Python's `str.lower` on extensions (ASCII case folding). -/
def lowerStr (s : String) : String :=
  String.mk (s.toList.map Char.toLower)

/-- Lexicographic less-or-equal on character lists by code point, the
order Python's string comparison uses. -/
def charListLE : List Char → List Char → Bool
  | [], _ => true
  | _ :: _, [] => false
  | a :: as, b :: bs =>
      if a.toNat < b.toNat then true
      else if b.toNat < a.toNat then false
      else charListLE as bs

lemma charListLE_total : ∀ as bs : List Char,
    charListLE as bs = true ∨ charListLE bs as = true
  | [], _ => Or.inl rfl
  | _ :: _, [] => Or.inr rfl
  | a :: as, b :: bs => by
      by_cases h1 : a.toNat < b.toNat
      · left
        simp [charListLE, h1]
      · by_cases h2 : b.toNat < a.toNat
        · right
          simp [charListLE, h2]
        · rcases charListLE_total as bs with h | h
          · left
            simp [charListLE, h1, h2, h]
          · right
            simp [charListLE, h1, h2, h]

lemma charListLE_trans : ∀ as bs cs : List Char,
    charListLE as bs = true → charListLE bs cs = true → charListLE as cs = true
  | [], _, _ => fun _ _ => rfl
  | _ :: _, [], _ => fun h _ => by simp [charListLE] at h
  | _ :: _, _ :: _, [] => fun _ h => by simp [charListLE] at h
  | a :: as, b :: bs, c :: cs => fun h1 h2 => by
      simp only [charListLE] at h1 h2 ⊢
      by_cases hab : a.toNat < b.toNat
      · have hcb : ¬ c.toNat < b.toNat := by
          intro hc
          simp [if_neg (by omega : ¬ b.toNat < c.toNat), hc] at h2
        by_cases hbc : b.toNat < c.toNat
        · simp [show a.toNat < c.toNat by omega]
        · simp [show a.toNat < c.toNat by omega]
      · have hba : ¬ b.toNat < a.toNat := by
          intro hc
          simp [if_neg hab, hc] at h1
        have hrec1 : charListLE as bs = true := by
          simpa [if_neg hab, if_neg hba] using h1
        by_cases hbc : b.toNat < c.toNat
        · simp [show a.toNat < c.toNat by omega]
        · have hcb : ¬ c.toNat < b.toNat := by
            intro hc
            simp [if_neg hbc, hc] at h2
          have hrec2 : charListLE bs cs = true := by
            simpa [if_neg hbc, if_neg hcb] using h2
          have hac : ¬ a.toNat < c.toNat := by omega
          have hca : ¬ c.toNat < a.toNat := by omega
          simp [if_neg hac, if_neg hca, charListLE_trans as bs cs hrec1 hrec2]

/-- Name comparison of directory entries; for entries of a single folder
Python's `sorted` on `Path` objects orders by the file-name string
(lexicographic by code point). -/
def nameLE (a b : DirEntry) : Prop :=
  charListLE a.name.toList b.name.toList = true

instance : DecidableRel nameLE :=
  fun a b =>
    inferInstanceAs (Decidable (charListLE a.name.toList b.name.toList = true))

instance : IsTotal DirEntry nameLE := ⟨fun _ _ => charListLE_total _ _⟩

instance : IsTrans DirEntry nameLE := ⟨fun _ _ _ h1 h2 => charListLE_trans _ _ _ h1 h2⟩

/-- Embeds `find_images` (src/quantify_images.py, lines 432-437):
`sorted([path for path in folder.iterdir() if path.suffix.lower() in
SUPPORTED_EXTENSIONS and path.is_file()])`. -/
def find_images (entries : List DirEntry) : List DirEntry :=
  List.insertionSort nameLE
    (entries.filter
      (fun p => SUPPORTED_EXTENSIONS.contains (lowerStr p.suffix) && p.isFile))

/-- Directory listing b.png, a.png, c.png in that order. -/
def demoDirBAC : List DirEntry :=
  [⟨"b.png", ".png", true⟩, ⟨"a.png", ".png", true⟩, ⟨"c.png", ".png", true⟩]

/- ### Parsing of the Fiji results CSV (quantify_images.py) -/

/-- One data row of the results CSV, as `csv.DictReader` yields it: an
association of column names to cell strings. -/
structure CsvRow where
  cells : List (String × String)
deriving DecidableEq

/-- First-match association lookup, the semantics of reading one key of a
`DictReader` row. -/
def lookupStr {α : Type} : List (String × α) → String → Option α
  | [], _ => none
  | p :: rest, k => if p.1 = k then some p.2 else lookupStr rest k

/-- `row.get(key)`: `none` when the column is absent. -/
def rowGet (r : CsvRow) (k : String) : Option String := lookupStr r.cells k

/-- Python's `a or dflt` for an optional string `a`: both `None` and the
empty string fall through to the default. -/
def orFalsy (a : Option String) (dflt : String) : String :=
  match a with
  | none => dflt
  | some s => if s = "" then dflt else s

/-- Embeds `row.get("Image") or row.get("Label") or ""`
(src/quantify_images.py, line 465). -/
def imageNameOf (r : CsvRow) : String :=
  orFalsy (rowGet r ("Image")) (orFalsy (rowGet r ("Label")) (""))

/-- Embeds lines 466 and 471 of src/quantify_images.py:
`row.get("Threshold Applied", "-")` followed by
`threshold_value if threshold_value else "-"`; a missing column and an
empty cell both give the dash. -/
def parseThresholdCell (cell : Option String) : String :=
  match cell with
  | none => "-"
  | some s => if s = "" then "-" else s

/-- Embeds the `Measurement` dataclass (src/quantify_images.py,
lines 34-41). -/
structure Measurement where
  key : String
  display_name : String
  imagej_option : String
  result_column : String
deriving DecidableEq

/-- Embeds the `MEASUREMENTS` tuple (src/quantify_images.py,
lines 44-51). -/
def MEASUREMENTS : List Measurement :=
  [⟨"area", "Area", "area", "Area"⟩,
   ⟨"mean", "Mean", "mean", "Mean"⟩,
   ⟨"std_dev", "StdDev", "standard", "StdDev"⟩,
   ⟨"min", "Min", "min", "Min"⟩,
   ⟨"max", "Max", "max", "Max"⟩,
   ⟨"int_den", "IntDen", "integrated", "IntDen"⟩]

/-- The per-row measurement mapping built at src/quantify_images.py,
lines 467-469: one `(display name, safe_float(cell))` entry per
measurement definition. -/
def measurementRowOf (defs : List Measurement) (r : CsvRow) :
    List (String × Option ℚ) :=
  defs.map (fun m => (m.display_name, safe_float (rowGet r m.result_column)))

/-- Embeds `parse_results_csv` (src/quantify_images.py, lines 451-474):
one image name, one threshold label and one measurement mapping appended
per data row. -/
def parse_results_csv (rows : List CsvRow) (defs : List Measurement) :
    List String × List String × List (List (String × Option ℚ)) :=
  (rows.map imageNameOf,
   rows.map (fun r => parseThresholdCell (rowGet r ("Threshold Applied"))),
   rows.map (measurementRowOf defs))

/- ### Run skeletons of the two entry points -/

/-- Embeds the surrounding logic of `main` (src/scripts/run_batch_quant.py,
lines 105-153): an empty image-path list aborts with exit code 1 before
the loop; a loop that produced no results aborts with exit code 1 after
reporting the skips; otherwise the results are handed to `write_results`.
`Except.error` carries the fatal message, `Except.ok` the records of the
produced report. -/
def mainBatch (inputs : List BatchInput) :
    Except String (List (String × ℚ × ℚ)) :=
  if inputs.isEmpty then
    Except.error ("The provided list file does not contain any image paths.")
  else if (batchLoop inputs).1.isEmpty then
    Except.error ("No images were processed successfully.")
  else Except.ok (batchLoop inputs).1

/-- Embeds the control skeleton of `process_images`
(src/quantify_images.py, lines 477-508): no supported image in the folder
is fatal before Fiji runs; a results CSV with no rows is fatal after it.
The Fiji invocation itself is external, so the rows of the CSV it produced
are a parameter; on success the function returns
(measurement rows, image names, threshold labels) as the source does. -/
def process_images (entries : List DirEntry) (rows : List CsvRow) :
    Except String (List (List (String × Option ℚ)) × List String × List String) :=
  if (find_images entries).isEmpty then
    Except.error ("No supported image files were found in the selected folder.")
  else if (parse_results_csv rows MEASUREMENTS).1.isEmpty then
    Except.error ("The results CSV produced by Fiji did not contain any measurements.")
  else
    Except.ok ((parse_results_csv rows MEASUREMENTS).2.2,
               (parse_results_csv rows MEASUREMENTS).1,
               (parse_results_csv rows MEASUREMENTS).2.1)

/- ### Theorems: C6 and C10 -/

/-- C6: the Manual(v) policy clamps v to [0,255] before masking (a value
already in range is untouched, 300 becomes 255, -5 becomes 0), the mask
rule compares each pixel against the clamped value, and the reported label
carries the clamped value. -/
theorem manual_threshold_clamped (v pixel : Int) :
    (0 ≤ clampThreshold v ∧ clampThreshold v ≤ 255) ∧
    (0 ≤ v → v ≤ 255 → clampThreshold v = v) ∧
    (manualMaskPix v pixel = decide (clampThreshold v ≤ pixel)) ∧
    (clampThreshold 300 = 255 ∧ clampThreshold (-5) = 0) ∧
    (∀ p : Int, manualMaskPix 300 p = decide ((255 : Int) ≤ p)) ∧
    (∀ p : Int, manualMaskPix (-5) p = decide ((0 : Int) ≤ p)) ∧
    (manualLabel 300 = "Manual (255)" ∧ manualLabel (-5) = "Manual (0)") := by
  have hcl : clampThreshold 300 = 255 := by decide
  have hcl2 : clampThreshold (-5) = 0 := by decide
  refine ⟨?_, ?_, rfl, by decide, ?_, ?_, by decide⟩
  · unfold clampThreshold
    split
    · omega
    · split <;> omega
  · intro h0 h255
    unfold clampThreshold
    split
    · omega
    · split <;> omega
  · intro p
    show decide (clampThreshold 300 ≤ p) = decide ((255 : Int) ≤ p)
    rw [hcl]
  · intro p
    show decide (clampThreshold (-5) ≤ p) = decide ((0 : Int) ≤ p)
    rw [hcl2]

/-- C6 witness: the clamping theorem instantiated at the in-range value 128
and pixel 7, discharging the range hypotheses. -/
theorem manual_threshold_clamped_witness :
    (0 : Int) ≤ 128 ∧ (128 : Int) ≤ 255 ∧ clampThreshold 128 = 128 :=
  ⟨by decide, by decide,
    (manual_threshold_clamped 128 7).2.1 (by decide) (by decide)⟩

/-- C10: safe_float is total (it is a Lean function) and yields NaN
(`none`) on `None`, on the empty string, and on any string the float
parser rejects, and the parsed value on any other string. -/
theorem safe_float_total (v : Option String) :
    (v = none → safe_float v = none) ∧
    (v = some ("") → safe_float v = none) ∧
    (∀ s, v = some s → pyFloat s = none → safe_float v = none) ∧
    (∀ s q, v = some s → s ≠ "" → pyFloat s = some q → safe_float v = some q) := by
  refine ⟨?_, ?_, ?_, ?_⟩
  · intro h; rw [h]; rfl
  · intro h; rw [h]; rfl
  · intro s hv hp
    rw [hv]
    show (if s = "" then none else pyFloat s) = none
    by_cases h : s = ""
    · rw [if_pos h]
    · rw [if_neg h]; exact hp
  · intro s q hv hs hp
    rw [hv]
    show (if s = "" then none else pyFloat s) = some q
    rw [if_neg hs]
    exact hp

/-- C10 witness: safe_float at the concrete strings "1.5" (parses to 3/2),
"abc" (rejected, NaN) and "" (NaN), via the totality theorem. -/
theorem safe_float_total_witness :
    safe_float (some ("1.5")) = some ((3 : ℚ) / 2) ∧
    safe_float (some ("abc")) = none ∧
    safe_float (some ("")) = none := by
  have h1 : pyFloatParts ("1.5") = some ⟨1, 1, 5, 1, 0⟩ := by decide
  have h2 : pyFloat ("1.5") = some ((3 : ℚ) / 2) := by
    show (pyFloatParts ("1.5")).map partsVal = some ((3 : ℚ) / 2)
    rw [h1]
    show some (partsVal ⟨1, 1, 5, 1, 0⟩) = some ((3 : ℚ) / 2)
    norm_num [partsVal]
  have h3 : pyFloat ("abc") = none := by
    show (pyFloatParts ("abc")).map partsVal = none
    have h : pyFloatParts ("abc") = none := by decide
    rw [h]
    rfl
  exact ⟨(safe_float_total (some ("1.5"))).2.2.2 ("1.5") ((3 : ℚ) / 2) rfl
            (by decide) h2,
         (safe_float_total (some ("abc"))).2.2.1 ("abc") rfl h3,
         (safe_float_total (some (""))).2.1 rfl⟩

/- ### Theorems: C3, C4, C5 -/

lemma recordNames_eq (inputs : List BatchInput) :
    recordNames inputs = (inputs.filter inputSucceeds).map BatchInput.path := by
  show ((batchLoop inputs).1).map Prod.fst
      = (inputs.filter inputSucceeds).map BatchInput.path
  rw [batchLoop_records, List.map_map]
  rfl

/-- C4: a failure decoding or measuring one image does not abort the
batch: the loop yields one record per successful image and one skip per
failed one (so record count plus skip count is the batch size), every
successful image is recorded no matter which other images fail, and the
three-image batch whose middle image is corrupt yields exactly two records
plus one skip. -/
theorem failure_isolation (inputs : List BatchInput) :
    (batchLoop inputs).1.length = inputs.countP inputSucceeds ∧
    (batchLoop inputs).2.length = inputs.countP (fun i => ! inputSucceeds i) ∧
    (batchLoop inputs).1.length + (batchLoop inputs).2.length = inputs.length ∧
    recordNames inputs = (inputs.filter inputSucceeds).map BatchInput.path ∧
    ((batchLoop demoThree).1.length = 2 ∧ (batchLoop demoThree).2.length = 1) := by
  have h1 : (batchLoop inputs).1.length = inputs.countP inputSucceeds := by
    rw [batchLoop_records, List.length_map, List.countP_eq_length_filter]
  refine ⟨h1, batchLoop_skip_count inputs, ?_, recordNames_eq inputs, by decide⟩
  rw [h1, batchLoop_skip_count inputs]
  have hfun : (fun a => decide (¬ inputSucceeds a = true)) = (fun i => ! inputSucceeds i) := by
    funext a
    cases h : inputSucceeds a <;> simp [h]
  have h2 := (List.length_eq_countP_add_countP inputSucceeds inputs).symm
  rw [hfun] at h2
  exact h2

/-- C3 counterexample: run_batch_quant.py processes images in the order
the list file supplies them; supplied b.png, a.png, c.png (all readable),
the ImageRecords come out in the order b, a, c, not sorted to a, b, c. -/
theorem record_order_counterexample :
    recordNames demoSupplyOrder = ["b.png", "a.png", "c.png"] ∧
    recordNames demoSupplyOrder ≠ ["a.png", "b.png", "c.png"] := by
  exact ⟨rfl, by decide⟩

/-- C3 (amended): the image enumeration of quantify_images.py
(`find_images`) is sorted lexicographically by name, ascending, and is a
permutation of the supported plain files of the folder — entries supplied
as b.png, a.png, c.png come out a.png, b.png, c.png — while
run_batch_quant.py emits its ImageRecords in the order the paths were
supplied, not sorted. -/
theorem image_order_amended (entries : List DirEntry) (inputs : List BatchInput) :
    List.Sorted nameLE (find_images entries) ∧
    (find_images entries).Perm
      (entries.filter
        (fun p => SUPPORTED_EXTENSIONS.contains (lowerStr p.suffix) && p.isFile)) ∧
    recordNames inputs = (inputs.filter inputSucceeds).map BatchInput.path ∧
    (find_images demoDirBAC).map DirEntry.name = ["a.png", "b.png", "c.png"] :=
  ⟨List.sorted_insertionSort nameLE _, List.perm_insertionSort nameLE _,
   recordNames_eq inputs, by decide⟩

/-- C5: an empty input image set, or a run in which every image failed,
is fatal and produces no report: `main` of run_batch_quant.py errors out
on an empty path list and whenever zero records were produced, and
`process_images` of quantify_images.py errors out when the folder holds no
supported image and when the results CSV has no data rows. -/
theorem empty_batch_fatal (inputs : List BatchInput) (entries : List DirEntry)
    (rows : List CsvRow) :
    (inputs = [] →
      mainBatch inputs
        = Except.error ("The provided list file does not contain any image paths.")) ∧
    ((batchLoop inputs).1 = [] → ∀ recs, mainBatch inputs ≠ Except.ok recs) ∧
    ((inputs ≠ [] ∧ (batchLoop inputs).1 ≠ []) →
      mainBatch inputs = Except.ok (batchLoop inputs).1) ∧
    (find_images entries = [] →
      process_images entries rows
        = Except.error ("No supported image files were found in the selected folder.")) ∧
    ((find_images entries ≠ [] ∧ rows = []) →
      process_images entries rows
        = Except.error
            ("The results CSV produced by Fiji did not contain any measurements.")) := by
  refine ⟨?_, ?_, ?_, ?_, ?_⟩
  · intro h
    subst h
    rfl
  · intro h recs
    unfold mainBatch
    by_cases he : inputs.isEmpty
    · rw [if_pos he]
      intro hc
      cases hc
    · rw [if_neg he, if_pos (by rw [h]; rfl)]
      intro hc
      cases hc
  · intro h
    unfold mainBatch
    rw [if_neg (by simpa [List.isEmpty_iff] using h.1),
        if_neg (by simpa [List.isEmpty_iff] using h.2)]
  · intro h
    unfold process_images
    rw [if_pos (by rw [h]; rfl)]
  · intro h
    unfold process_images
    rw [if_neg (by simpa [List.isEmpty_iff] using h.1)]
    rw [if_pos (by simp [parse_results_csv, h.2])]

/-- C5 witness: the fatality theorem instantiated at an empty batch, at a
batch whose only image is corrupt, at a successful singleton batch, at an
empty folder, and at an empty results CSV, discharging each hypothesis. -/
theorem empty_batch_fatal_witness :
    mainBatch []
      = Except.error ("The provided list file does not contain any image paths.") ∧
    mainBatch [⟨"a.png", true, Except.error ("bad header")⟩]
      ≠ Except.ok [("a.png", 4, 100)] ∧
    mainBatch [⟨"a.png", true, Except.ok (4, 100)⟩]
      = Except.ok (batchLoop [⟨"a.png", true, Except.ok (4, 100)⟩]).1 ∧
    process_images [] []
      = Except.error ("No supported image files were found in the selected folder.") ∧
    process_images demoDirBAC []
      = Except.error
          ("The results CSV produced by Fiji did not contain any measurements.") :=
  ⟨(empty_batch_fatal [] [] []).1 rfl,
   (empty_batch_fatal [⟨"a.png", true, Except.error ("bad header")⟩] [] []).2.1
      (by decide) [("a.png", 4, 100)],
   (empty_batch_fatal [⟨"a.png", true, Except.ok (4, 100)⟩] [] []).2.2.1
      ⟨by decide, by decide⟩,
   (empty_batch_fatal [] [] []).2.2.2.1 (by decide),
   (empty_batch_fatal [] demoDirBAC []).2.2.2.2 ⟨by decide, rfl⟩⟩

/- ### Theorems: C7 -/

/-- C7 counterexample: with a manual threshold of 128 the label written
into the results row (and hence stored in the ImageRecord) is
"Manual (128)", a descriptive string, not "128", the string form of the
integer threshold value used for masking. -/
theorem threshold_label_counterexample :
    manualLabel 128 = "Manual (128)" ∧ manualLabel 128 ≠ "128" := by
  exact ⟨by decide, by decide⟩

/-- C7 (amended): the threshold label stored in an ImageRecord is "-"
exactly when the results row has no (non-empty) "Threshold Applied" cell;
otherwise it is the cell's descriptive string as the macro wrote it — for
a manual threshold, "Manual (v)" with v the post-clamp value, which is
never the dash and survives parsing unchanged. -/
theorem threshold_label_amended (v : Int) :
    (parseThresholdCell none = "-") ∧
    (parseThresholdCell (some ("")) = "-") ∧
    (∀ s : String, s ≠ "" → parseThresholdCell (some s) = s) ∧
    (manualLabel v ≠ "-") ∧
    (parseThresholdCell (some (manualLabel v)) = manualLabel v) := by
  have hlen : (manualLabel v).length
      = 8 + (toString (clampThreshold v)).length + 1 := by
    show (("Manual (" ++ toString (clampThreshold v)) ++ (")")).length
        = 8 + (toString (clampThreshold v)).length + 1
    rw [String.length_append, String.length_append]
    rfl
  have hstep : ∀ s : String, s ≠ "" → parseThresholdCell (some s) = s := by
    intro s hs
    show (if s = "" then "-" else s) = s
    rw [if_neg hs]
  have hne : manualLabel v ≠ "" := by
    intro h
    have := congrArg String.length h
    rw [hlen] at this
    simp at this
  have hdash : manualLabel v ≠ "-" := by
    intro h
    have := congrArg String.length h
    rw [hlen] at this
    have h1 : ("-" : String).length = 1 := rfl
    rw [h1] at this
    omega
  exact ⟨rfl, rfl, hstep, hdash, hstep (manualLabel v) hne⟩

/-- C7 witness: the amended label theorem instantiated at manual value 300
and at the concrete Otsu-style cell "Otsu (10.00)", discharging the
non-emptiness hypothesis. -/
theorem threshold_label_amended_witness :
    parseThresholdCell (some ("Otsu (10.00)")) = "Otsu (10.00)" ∧
    parseThresholdCell (some (manualLabel 300)) = manualLabel 300 :=
  ⟨(threshold_label_amended 0).2.2.1 ("Otsu (10.00)") (by decide),
   (threshold_label_amended 300).2.2.2.2⟩

/- ### Theorems: C9 -/

lemma lookupStr_map {β : Type} (f : Measurement → β)
    (l : List Measurement) (m : Measurement)
    (hnd : (l.map Measurement.display_name).Nodup) (hm : m ∈ l) :
    lookupStr (l.map (fun x => (x.display_name, f x))) m.display_name
      = some (f m) := by
  induction l with
  | nil => cases hm
  | cons x xs ih =>
      simp only [List.map_cons, List.nodup_cons] at hnd
      rcases List.mem_cons.mp hm with h | h
      · subst h
        simp [lookupStr]
      · have hne : x.display_name ≠ m.display_name := by
          intro he
          exact hnd.1 (he ▸ List.mem_map_of_mem Measurement.display_name h)
        show (if x.display_name = m.display_name then some (f x)
              else lookupStr (xs.map (fun y => (y.display_name, f y)))
                m.display_name) = some (f m)
        rw [if_neg hne]
        exact ih hnd.2 h

/-- C9: parse_results_csv yields three sequences of one entry per data
row (so all three have the row count as length), every measurement
mapping's keys are exactly the display names of the supplied measurement
definitions in order, and (when display names are distinct, as they are
for MEASUREMENTS) looking up a definition's display name gives
safe_float of that definition's result column — NaN when the column is
missing or unparseable. -/
theorem parse_results_shape (rows : List CsvRow) (defs : List Measurement) :
    (parse_results_csv rows defs).1.length = rows.length ∧
    (parse_results_csv rows defs).2.1.length = rows.length ∧
    (parse_results_csv rows defs).2.2.length = rows.length ∧
    (∀ mr ∈ (parse_results_csv rows defs).2.2,
        mr.map Prod.fst = defs.map Measurement.display_name) ∧
    ((defs.map Measurement.display_name).Nodup →
      ∀ r ∈ rows, ∀ m ∈ defs,
        lookupStr (measurementRowOf defs r) m.display_name
          = some (safe_float (rowGet r m.result_column))) := by
  refine ⟨List.length_map _ _, List.length_map _ _, List.length_map _ _, ?_, ?_⟩
  · intro mr hmr
    rcases List.mem_map.mp hmr with ⟨r, _, hr⟩
    rw [← hr]
    show (measurementRowOf defs r).map Prod.fst = defs.map Measurement.display_name
    rw [measurementRowOf, List.map_map]
    rfl
  · intro hnd r _ m hm
    exact lookupStr_map (fun x => safe_float (rowGet r x.result_column)) defs m hnd hm

/-- The Mean measurement definition from MEASUREMENTS. -/
def mMean : Measurement := ⟨"mean", "Mean", "mean", "Mean"⟩

/-- A sample results row as Fiji writes it. -/
def demoRow : CsvRow :=
  ⟨[("Image", "img1.png"), ("Mean", "12.5"), ("Threshold Applied", "Otsu (10.00)")]⟩

/-- C9 witness: the parse-shape theorem instantiated at one concrete row
and the concrete MEASUREMENTS definitions, discharging the distinctness
hypothesis and the membership hypotheses. -/
theorem parse_results_shape_witness :
    lookupStr (measurementRowOf MEASUREMENTS demoRow) ("Mean")
      = some (safe_float (rowGet demoRow ("Mean"))) :=
  (parse_results_shape [demoRow] MEASUREMENTS).2.2.2.2 (by decide)
    demoRow (by decide) mMean (by decide)

/- ### Summary aggregation of export_to_excel (C2) -/

/-- `result.get(display_name, nan)`: a missing key reads as NaN. -/
def dictGetNaN (d : List (String × Option ℚ)) (k : String) : Option ℚ :=
  match lookupStr d k with
  | some v => v
  | none => none

/-- The per-measurement value list collected at src/quantify_images.py,
line 554: one value (possibly NaN) per ImageRecord. -/
def collectValues (results : List (List (String × Option ℚ)))
    (label : String) : List (Option ℚ) :=
  results.map (fun r => dictGetNaN r label)

/-- The NaN filter of src/quantify_images.py, line 555. -/
def cleanValues (vals : List (Option ℚ)) : List ℚ :=
  vals.filterMap id

/-- `statistics.mean`: the exact arithmetic mean. -/
def listMean (xs : List ℚ) : ℚ :=
  xs.sum / (xs.length : ℚ)

/-- The square of `statistics.stdev`: the sample variance with divisor
N-1.  The standard deviation itself is its (irrational in general) square
root, so the development carries the square; a stdev of 1.0 corresponds
to a sample variance of 1. -/
def sampleVar (xs : List ℚ) : ℚ :=
  (xs.map (fun x => (x - listMean xs) ^ 2)).sum / ((xs.length : ℚ) - 1)

/-- One summary row: label, mean, squared sample standard deviation and
valid count, with `none` for NaN. -/
structure SummaryRow where
  label : String
  meanV : Option ℚ
  stdevSq : Option ℚ
  validCount : ℕ
deriving DecidableEq

/-- Embeds the summary block of `export_to_excel`
(src/quantify_images.py, lines 553-569): collect the label's value from
every record, drop NaNs; a non-empty remainder gets the mean and — only
when more than one value remains — the sample standard deviation
(represented here by its square), else NaN; an empty remainder gets NaN
for both; the count column is always the number of retained values. -/
def summarize (results : List (List (String × Option ℚ)))
    (label : String) : SummaryRow :=
  if (cleanValues (collectValues results label)).isEmpty then
    ⟨label, none, none, (cleanValues (collectValues results label)).length⟩
  else
    ⟨label, some (listMean (cleanValues (collectValues results label))),
     if 1 < (cleanValues (collectValues results label)).length
       then some (sampleVar (cleanValues (collectValues results label)))
       else none,
     (cleanValues (collectValues results label)).length⟩

lemma length_filterMap_id (l : List (Option ℚ)) :
    (l.filterMap id).length = l.countP (fun v => v.isSome) := by
  induction l with
  | nil => rfl
  | cons a rest ih =>
      cases a <;> simp [List.filterMap_cons, List.countP_cons, ih]

/- ### Measurements over a selected population (C8) -/

/-- Modelled from the spec: the selected population — all pixels when the
mask is absent, else exactly the pixels whose mask entry is true.  The
per-pixel statistics themselves run inside ImageJ, outside this
repository. -/
def selectPop (pixels : List ℚ) (mask : Option (List Bool)) : List ℚ :=
  match mask with
  | none => pixels
  | some m => (pixels.zip m).filterMap (fun pb => if pb.2 then some pb.1 else none)

/-- Modelled from the spec: the `mean` measurement; NaN on an empty
population, never an exception. -/
def measMean (pop : List ℚ) : Option ℚ :=
  if pop.isEmpty then none else some (listMean pop)

/-- Modelled from the spec: the `std_dev` measurement (population
standard deviation, divisor N), represented by its square to stay in
exact arithmetic; NaN on an empty population, never an exception. -/
def measStdSq (pop : List ℚ) : Option ℚ :=
  if pop.isEmpty then none
  else some ((pop.map (fun x => (x - listMean pop) ^ 2)).sum / (pop.length : ℚ))

/-- Modelled from the spec: the `min` measurement; NaN on an empty
population, never an exception. -/
def measMin (pop : List ℚ) : Option ℚ :=
  match pop with
  | [] => none
  | x :: xs => some (xs.foldl min x)

/-- Modelled from the spec: the `max` measurement; NaN on an empty
population, never an exception. -/
def measMax (pop : List ℚ) : Option ℚ :=
  match pop with
  | [] => none
  | x :: xs => some (xs.foldl max x)

/-- Modelled from the spec: the `sum` / integrated-density measurement;
0 on an empty population. -/
def measSum (pop : List ℚ) : ℚ := pop.sum

/-- Modelled from the spec: the `foreground_area` measurement — the count
of selected pixels, the full pixel count when the mask is absent. -/
def measArea (pixels : List ℚ) (mask : Option (List Bool)) : ℕ :=
  (selectPop pixels mask).length

/-- Embeds `quantify_image` (src/scripts/run_batch_quant.py,
lines 68-79): area = rows * cols of the grayscale array, integrated
density = sum of its values (numpy's sum of an empty array is 0). -/
def quantify_image (rows cols : ℕ) (pix : List ℚ) : ℚ × ℚ :=
  ((rows * cols : ℕ), pix.sum)

lemma selectPop_all_false (pixels : List ℚ) :
    selectPop pixels (some (pixels.map (fun _ => false))) = [] := by
  induction pixels with
  | nil => rfl
  | cons x xs ih => simpa [selectPop] using ih

/- ### Theorems: C2 and C8 -/

/-- C2: the summary aggregation drops exactly the NaN values — validCount
is the number of non-NaN values collected; an empty remainder gives NaN
mean and NaN stdev; exactly one remaining value gives its own mean and
NaN stdev; a non-empty remainder gets the arithmetic mean, and more than
one value gets the sample (divisor N-1) standard deviation. -/
theorem summary_aggregation (results : List (List (String × Option ℚ)))
    (label : String) :
    (summarize results label).validCount
        = (collectValues results label).countP (fun v => v.isSome) ∧
    (cleanValues (collectValues results label) = [] →
        (summarize results label).meanV = none ∧
        (summarize results label).stdevSq = none) ∧
    (∀ x : ℚ, cleanValues (collectValues results label) = [x] →
        (summarize results label).meanV = some x ∧
        (summarize results label).stdevSq = none) ∧
    (cleanValues (collectValues results label) ≠ [] →
        (summarize results label).meanV
          = some (listMean (cleanValues (collectValues results label)))) ∧
    (1 < (cleanValues (collectValues results label)).length →
        (summarize results label).stdevSq
          = some (sampleVar (cleanValues (collectValues results label)))) := by
  refine ⟨?_, ?_, ?_, ?_, ?_⟩
  · show (summarize results label).validCount = _
    unfold summarize
    split
    · exact length_filterMap_id _
    · exact length_filterMap_id _
  · intro h
    unfold summarize
    rw [if_pos (by rw [h]; rfl)]
    exact ⟨rfl, rfl⟩
  · intro x h
    unfold summarize
    rw [if_neg (by rw [h]; exact (by simp : ¬ ([x] : List ℚ).isEmpty = true))]
    constructor
    · show some (listMean (cleanValues (collectValues results label))) = some x
      rw [h]
      show some (listMean [x]) = some x
      simp [listMean]
    · show (if 1 < (cleanValues (collectValues results label)).length
            then some (sampleVar (cleanValues (collectValues results label)))
            else none) = none
      rw [h]
      rfl
  · intro h
    unfold summarize
    rw [if_neg (by simpa [List.isEmpty_iff] using h)]
  · intro h
    have hne : cleanValues (collectValues results label) ≠ [] := by
      intro hc
      rw [hc] at h
      simp at h
    unfold summarize
    rw [if_neg (by simpa [List.isEmpty_iff] using hne)]
    show (if 1 < (cleanValues (collectValues results label)).length
          then some (sampleVar (cleanValues (collectValues results label)))
          else none) = _
    rw [if_pos h]

/-- Three records carrying the Mean values 1.0, 2.0 and 3.0. -/
def demoResults : List (List (String × Option ℚ)) :=
  [[("Mean", some 1)], [("Mean", some 2)], [("Mean", some 3)]]

/-- C2 witness: the aggregation theorem instantiated over the values
[1.0, 2.0, 3.0]: mean 2.0, sample variance 1 (stdev 1.0), validCount 3. -/
theorem summary_aggregation_witness :
    (summarize demoResults ("Mean")).meanV = some 2 ∧
    (summarize demoResults ("Mean")).stdevSq = some 1 ∧
    (summarize demoResults ("Mean")).validCount = 3 := by
  have hc : cleanValues (collectValues demoResults ("Mean")) = [(1 : ℚ), 2, 3] := rfl
  have hne : cleanValues (collectValues demoResults ("Mean")) ≠ [] := by
    rw [hc]
    exact List.cons_ne_nil _ _
  have hlen : 1 < (cleanValues (collectValues demoResults ("Mean"))).length := by
    rw [hc]
    simp
  have hmean := (summary_aggregation demoResults ("Mean")).2.2.2.1 hne
  have hvar := (summary_aggregation demoResults ("Mean")).2.2.2.2 hlen
  have hcount := (summary_aggregation demoResults ("Mean")).1
  have hm : listMean [(1 : ℚ), 2, 3] = 2 := by
    norm_num [listMean]
  have hv : sampleVar [(1 : ℚ), 2, 3] = 1 := by
    simp only [sampleVar, hm]
    norm_num
  refine ⟨?_, ?_, ?_⟩
  · rw [hmean, hc, hm]
  · rw [hvar, hc, hv]
  · rw [hcount]
    rfl

/-- C8: no measurement raises on an empty selected population (the
embedding is total): mean, std_dev, min and max yield NaN, the cumulative
sum / integrated density and foreground_area yield 0; an absent mask
selects every pixel; and quantify_image of a zero-dimension image yields
area 0 and integrated density 0. -/
theorem empty_population_measurements (pixels : List ℚ) :
    measMean [] = none ∧ measStdSq [] = none ∧
    measMin [] = none ∧ measMax [] = none ∧
    measSum [] = 0 ∧
    measArea pixels (some (pixels.map (fun _ => false))) = 0 ∧
    measArea pixels none = pixels.length ∧
    quantify_image 0 5 [] = (0, 0) := by
  refine ⟨rfl, rfl, rfl, rfl, rfl, ?_, rfl, ?_⟩
  · show (selectPop pixels (some (pixels.map (fun _ => false)))).length = 0
    rw [selectPop_all_false]
    rfl
  · show (((0 * 5 : ℕ) : ℚ), ([] : List ℚ).sum) = ((0 : ℚ), (0 : ℚ))
    norm_num

/- ### Otsu threshold (C1) -/

/-- Modelled from the spec: `weightBackground`, the cumulative histogram
count up to and including level l.  The macro delegates the Otsu search to
ImageJ's setAutoThreshold("Otsu") (src/quantify_images.py, lines 339-342);
the algorithm itself lives outside this repository and is taken from the
specification, section 4.1. -/
def wB (h : ℕ → ℕ) (l : ℕ) : ℕ :=
  ((List.range (l + 1)).map h).sum

/-- Modelled from the spec: `sumBackground`, the cumulative
intensity-weighted count up to and including level l. -/
def sB (h : ℕ → ℕ) (l : ℕ) : ℕ :=
  ((List.range (l + 1)).map (fun i => i * h i)).sum

/-- Modelled from the spec: `total`, the pixel count of the 256-bin
histogram. -/
def histTotal (h : ℕ → ℕ) : ℕ := wB h 255

/-- Modelled from the spec: `sumTotal`, the intensity-weighted count of
the whole histogram. -/
def histSum (h : ℕ → ℕ) : ℕ := sB h 255

/-- Modelled from the spec: `weightForeground` at level l. -/
def wF (h : ℕ → ℕ) (l : ℕ) : ℕ := histTotal h - wB h l

/-- Modelled from the spec: the between-class variance at level l:
`weightBackground * weightForeground * (meanBackground - meanForeground)^2`
with `meanBackground = sumBackground / weightBackground` and
`meanForeground = (sumTotal - sumBackground) / weightForeground`.  With
ℚ's total division the value is 0 whenever either weight is 0, extending
the spec's formula (only evaluated on valid levels) by 0 elsewhere. -/
def bcVar (h : ℕ → ℕ) (l : ℕ) : ℚ :=
  (wB h l : ℚ) * (wF h l : ℚ) *
    ((sB h l : ℚ) / (wB h l : ℚ)
      - ((histSum h : ℚ) - (sB h l : ℚ)) / (wF h l : ℚ)) ^ 2

/-- Modelled from the spec: one step of the level scan.  A level with
empty background is skipped; a level with empty foreground is skipped,
which is equivalent to the spec's early stop because the foreground
weight is non-increasing in the level; otherwise the tracked (level,
variance) pair is replaced exactly when the new variance is strictly
larger, so ties keep the first (lowest) level. -/
def otsuStep (h : ℕ → ℕ) (st : ℕ × ℚ) (l : ℕ) : ℕ × ℚ :=
  if wB h l ≠ 0 ∧ wF h l ≠ 0 then
    (if st.2 < bcVar h l then (l, bcVar h l) else st)
  else st

/-- Modelled from the spec: the Otsu threshold — 0 for a histogram with
total 0, else the level tracked by scanning 0..255 starting from level 0
with best variance 0. -/
def otsuThreshold (h : ℕ → ℕ) : ℕ :=
  if histTotal h = 0 then 0
  else ((List.range 256).foldl (otsuStep h) (0, 0)).1

/-- The scan invariant after the first k levels: the tracked variance is
nonnegative and dominates every earlier level, and the tracked state is
either the initial (0, 0) or a strict first argmax seen so far. -/
def OtsuInv (h : ℕ → ℕ) (k : ℕ) (st : ℕ × ℚ) : Prop :=
  0 ≤ st.2 ∧
  (∀ l, l < k → bcVar h l ≤ st.2) ∧
  ((st.1 = 0 ∧ st.2 = 0) ∨
    (st.1 < k ∧ st.2 = bcVar h st.1 ∧ ∀ l, l < st.1 → bcVar h l < st.2))

lemma bcVar_nonneg (h : ℕ → ℕ) (l : ℕ) : 0 ≤ bcVar h l := by
  unfold bcVar
  positivity

lemma bcVar_invalid (h : ℕ → ℕ) (l : ℕ)
    (hl : wB h l = 0 ∨ wF h l = 0) : bcVar h l = 0 := by
  unfold bcVar
  rcases hl with h0 | h0 <;> rw [h0] <;> simp

lemma wB_mono (h : ℕ → ℕ) {l m : ℕ} (hlm : l ≤ m) : wB h l ≤ wB h m := by
  have hstep : ∀ k : ℕ, wB h l ≤ wB h (l + k) := by
    intro k
    induction k with
    | zero => exact le_refl _
    | succ k ih =>
        have h1 : wB h (l + k) ≤ wB h (l + k + 1) := by
          unfold wB
          nth_rewrite 2 [List.range_succ]
          rw [List.map_append, List.sum_append]
          exact Nat.le_add_right _ _
        exact le_trans ih h1
  obtain ⟨k, rfl⟩ := Nat.exists_eq_add_of_le hlm
  exact hstep k

lemma otsuStep_inv (h : ℕ → ℕ) (k : ℕ) (st : ℕ × ℚ)
    (hInv : OtsuInv h k st) : OtsuInv h (k + 1) (otsuStep h st k) := by
  obtain ⟨h0, hall, hbest⟩ := hInv
  unfold otsuStep
  by_cases hval : wB h k ≠ 0 ∧ wF h k ≠ 0
  · rw [if_pos hval]
    by_cases hlt : st.2 < bcVar h k
    · rw [if_pos hlt]
      refine ⟨le_of_lt (lt_of_le_of_lt h0 hlt), ?_,
        Or.inr ⟨Nat.lt_succ_self k, rfl, ?_⟩⟩
      · intro l hl
        rcases Nat.lt_succ_iff_lt_or_eq.mp hl with hl2 | hl2
        · exact le_of_lt (lt_of_le_of_lt (hall l hl2) hlt)
        · subst hl2
          exact le_refl _
      · intro l hl
        exact lt_of_le_of_lt (hall l hl) hlt
    · rw [if_neg hlt]
      refine ⟨h0, ?_, ?_⟩
      · intro l hl
        rcases Nat.lt_succ_iff_lt_or_eq.mp hl with hl2 | hl2
        · exact hall l hl2
        · subst hl2
          exact le_of_not_lt hlt
      · rcases hbest with hb | hb
        · exact Or.inl hb
        · exact Or.inr ⟨Nat.lt_succ_of_lt hb.1, hb.2.1, hb.2.2⟩
  · rw [if_neg hval]
    have hz : wB h k = 0 ∨ wF h k = 0 := by
      rcases not_and_or.mp hval with hw | hw
      · exact Or.inl (not_not.mp hw)
      · exact Or.inr (not_not.mp hw)
    refine ⟨h0, ?_, ?_⟩
    · intro l hl
      rcases Nat.lt_succ_iff_lt_or_eq.mp hl with hl2 | hl2
      · exact hall l hl2
      · subst hl2
        rw [bcVar_invalid h l hz]
        exact h0
    · rcases hbest with hb | hb
      · exact Or.inl hb
      · exact Or.inr ⟨Nat.lt_succ_of_lt hb.1, hb.2.1, hb.2.2⟩

lemma otsuFold_inv (h : ℕ → ℕ) :
    ∀ n : ℕ, OtsuInv h n ((List.range n).foldl (otsuStep h) (0, 0))
  | 0 => ⟨le_refl 0, fun l hl => absurd hl (Nat.not_lt_zero l), Or.inl ⟨rfl, rfl⟩⟩
  | n + 1 => by
      rw [List.range_succ, List.foldl_append, List.foldl_cons, List.foldl_nil]
      exact otsuStep_inv h n _ (otsuFold_inv h n)

/-- C1: the Otsu threshold is an integer split level in [0,255]; it is 0
when the histogram total is 0; its between-class variance is maximal over
every level 0..255; and it is the first (lowest) level attaining that
maximal variance, deterministically. -/
theorem otsu_correct (h : ℕ → ℕ) :
    otsuThreshold h ≤ 255 ∧
    (histTotal h = 0 → otsuThreshold h = 0) ∧
    (∀ l, l ≤ 255 → bcVar h l ≤ bcVar h (otsuThreshold h)) ∧
    (∀ l, l ≤ 255 → bcVar h l = bcVar h (otsuThreshold h) → otsuThreshold h ≤ l) := by
  by_cases hz : histTotal h = 0
  · have hwb : ∀ l, l ≤ 255 → wB h l = 0 := fun l hl =>
      Nat.le_zero.mp (hz ▸ wB_mono h hl)
    have hbv : ∀ l, l ≤ 255 → bcVar h l = 0 := fun l hl =>
      bcVar_invalid h l (Or.inl (hwb l hl))
    have ht : otsuThreshold h = 0 := by
      unfold otsuThreshold
      rw [if_pos hz]
    rw [ht]
    refine ⟨Nat.zero_le 255, fun _ => rfl, ?_, fun l _ _ => Nat.zero_le l⟩
    intro l hl
    rw [hbv l hl, hbv 0 (by omega)]
  · have ht : otsuThreshold h = ((List.range 256).foldl (otsuStep h) (0, 0)).1 := by
      unfold otsuThreshold
      rw [if_neg hz]
    obtain ⟨h0, hall, hbest⟩ := otsuFold_inv h 256
    rcases hbest with ⟨hb1, hb2⟩ | ⟨hlt, heq, hfirst⟩
    · rw [ht, hb1]
      refine ⟨Nat.zero_le 255, fun _ => rfl, ?_, fun l _ _ => Nat.zero_le l⟩
      intro l hl
      have h1 := hall l (by omega)
      rw [hb2] at h1
      exact le_trans h1 (bcVar_nonneg h 0)
    · rw [ht]
      refine ⟨by omega, fun hc => absurd hc hz, ?_, ?_⟩
      · intro l hl
        rw [← heq]
        exact hall l (by omega)
      · intro l _ hequal
        by_contra hcon
        push_neg at hcon
        have hstrict := hfirst l hcon
        rw [heq] at hstrict
        rw [hequal] at hstrict
        exact lt_irrefl _ hstrict

/-- A bimodal histogram: 3 pixels at intensity 10, 5 at intensity 200. -/
def demoHist (i : ℕ) : ℕ :=
  if i = 10 then 3 else if i = 200 then 5 else 0

/-- The histogram of an empty (or degenerate) image. -/
def zeroHist (_ : ℕ) : ℕ := 0

set_option maxRecDepth 100000 in
/-- C1 witness: the correctness theorem instantiated at the all-zero
histogram (total 0, threshold 0) and at a concrete bimodal histogram
(threshold within range, variance at level 10 dominated), discharging
each hypothesis. -/
theorem otsu_correct_witness :
    histTotal zeroHist = 0 ∧ otsuThreshold zeroHist = 0 ∧
    otsuThreshold demoHist ≤ 255 ∧
    bcVar demoHist 10 ≤ bcVar demoHist (otsuThreshold demoHist) :=
  ⟨by decide, (otsu_correct zeroHist).2.1 (by decide),
   (otsu_correct demoHist).1,
   (otsu_correct demoHist).2.2.1 10 (by decide)⟩
